import Mathlib

/-!
# Verification of the my-dashboard normalization/aggregation pipeline

Shallow embedding of the data pipeline in `Dashboard.jsx`
(`parseValues`, `chartData`, `parseNumber`, `parsePercent`,
`normalizeYesNo`, `totals`, and the Margin Expansion top-5 list).

Modelling conventions:
* A spreadsheet cell (`Cell`) is a string, an integer-valued number, a
  boolean, JSON `null`, or JavaScript `undefined` (the value of a missing
  object key / array slot).  Claims exercise only these shapes; non-integer
  numeric cells and IEEE infinities are outside every claim and outside this
  model.
* JavaScript numbers produced by the coercers are modelled as exact
  rationals (`ℚ`); `Option ℚ` is used where `NaN` can occur (`none` = NaN).
* String processing is modelled on `List Char` with structural functions
  mirroring the JavaScript string methods used by the source.
-/

namespace Dashboard

/-- A raw spreadsheet cell as the component can observe it. -/
inductive Cell where
  | str (s : String)
  | num (n : Int)
  | boolean (b : Bool)
  | nullv
  | undef
  deriving DecidableEq, Repr

/-- JavaScript falsiness (`!v`) restricted to `Cell`:
`""`, `0`, `false`, `null` and `undefined` are falsy. -/
def jsFalsy : Cell → Bool
  | .str "" => true
  | .num 0 => true
  | .boolean false => true
  | .nullv => true
  | .undef => true
  | _ => false

/-- JavaScript `String(v)` on a `Cell`. -/
def cellToString : Cell → String
  | .str s => s
  | .num n => toString n
  | .boolean true => "true"
  | .boolean false => "false"
  | .nullv => "null"
  | .undef => "undefined"

/-- `String(v)` as a character list, the form the string helpers work on. -/
def cellToStringL (v : Cell) : List Char := (cellToString v).toList

/-- `s.trim()`: drop whitespace from both ends. -/
def trimL (cs : List Char) : List Char :=
  ((cs.dropWhile Char.isWhitespace).reverse.dropWhile Char.isWhitespace).reverse

/-- `s.toLowerCase()` (ASCII, which covers every cell the claims use). -/
def lowerL (cs : List Char) : List Char := cs.map Char.toLower

/-- Does `cs` start with `needle`?  (helper for `includes`). -/
def startsWithL : List Char → List Char → Bool
  | [], _ => true
  | _ :: _, [] => false
  | a :: as, b :: bs => a = b && startsWithL as bs

/-- JavaScript `hay.includes(needle)`: substring containment. -/
def hasSubstr (needle : List Char) : List Char → Bool
  | [] => startsWithL needle []
  | c :: cs => startsWithL needle (c :: cs) || hasSubstr needle cs

/-- `s.replace('%','')`: JavaScript `replace` with a string pattern removes
only the FIRST occurrence. -/
def removeFirstPercent : List Char → List Char
  | [] => []
  | c :: cs => if c = '%' then cs else c :: removeFirstPercent cs

/-- `s.replace(/[$,]/g, '')`: the global regex removes every `$` and `,`. -/
def removeDollarComma (cs : List Char) : List Char :=
  cs.filter (fun c => !(c = '$' || c = ','))

/-- Numeric value of a digit string (most significant digit first). -/
def digitsVal (ds : List Char) : Nat :=
  ds.foldl (fun a c => 10 * a + (c.toNat - '0'.toNat)) 0

/-- `10 ^ n` in `ℚ`, structurally (kernel-reducible). -/
def tenPowQ : Nat → ℚ
  | 0 => 1
  | n + 1 => 10 * tenPowQ n

/-- Result of the digit-level phase of `parseFloat`: sign, mantissa digits
read as a natural number, number of fraction digits, exponent sign and
exponent value. -/
structure FloatRep where
  neg : Bool
  mant : Nat
  fracLen : Nat
  expNeg : Bool
  expVal : Nat
  deriving DecidableEq, Repr

/-- Strip an optional leading sign, returning whether it was `-`. -/
def splitSign : List Char → Bool × List Char
  | '-' :: t => (true, t)
  | '+' :: t => (false, t)
  | cs => (false, cs)

/-- Exponent part after `e`/`E`: JavaScript `parseFloat` only consumes the
exponent when at least one digit follows. -/
def readExp (t : List Char) : Bool × Nat :=
  let (en, t2) := splitSign t
  let ed := t2.takeWhile Char.isDigit
  if ed.isEmpty then (false, 0) else (en, digitsVal ed)

/-- Digit-level phase of JavaScript `parseFloat`: longest valid decimal
prefix after optional leading whitespace; `none` when no digits can be
read (`parseFloat` yields `NaN` there).  `Infinity` literals are not
modelled (no finite rational value; no claim touches them). -/
def parseFloatRep (cs0 : List Char) : Option FloatRep :=
  let cs := cs0.dropWhile Char.isWhitespace
  let (neg, cs1) := splitSign cs
  let ip := cs1.takeWhile Char.isDigit
  let cs2 := cs1.dropWhile Char.isDigit
  let (fp, cs3) :=
    match cs2 with
    | '.' :: t => (t.takeWhile Char.isDigit, t.dropWhile Char.isDigit)
    | _ => ([], cs2)
  if ip.isEmpty && fp.isEmpty then none
  else
    let (expNeg, expVal) :=
      match cs3 with
      | 'e' :: t => readExp t
      | 'E' :: t => readExp t
      | _ => (false, 0)
    some ⟨neg, digitsVal (ip ++ fp), fp.length, expNeg, expVal⟩

/-- Rational value of a `FloatRep`. -/
def repToQ (r : FloatRep) : ℚ :=
  let m : ℚ := (r.mant : ℚ) / tenPowQ r.fracLen
  let s : ℚ := if r.neg then -m else m
  if r.expNeg then s / tenPowQ r.expVal else s * tenPowQ r.expVal

/-- JavaScript `parseFloat` (`none` = `NaN`). -/
def parseFloatQ (cs : List Char) : Option ℚ :=
  (parseFloatRep cs).map repToQ

/-- The regex `^([0-9\.\-]+)\s*([bBmMtT])?$` from `parseNumber`.
Group 1 is greedy; since no suffix or whitespace character belongs to
`[0-9.\-]`, maximal munch is exact.  Returns group 1 and the optional
suffix character. -/
def matchMagnitude (cs : List Char) : Option (List Char × Option Char) :=
  let magChar : Char → Bool := fun c => c.isDigit || c = '.' || c = '-'
  let p1 := cs.takeWhile magChar
  if p1.isEmpty then none
  else
    match (cs.dropWhile magChar).dropWhile Char.isWhitespace with
    | [] => some (p1, none)
    | [c] =>
      if c = 'b' || c = 'B' || c = 'm' || c = 'M' || c = 't' || c = 'T' then
        some (p1, some c)
      else none
    | _ => none

/-- Scale factor applied for the matched suffix (`suf.toLowerCase()` then
`b → 1e9`, `m → 1e6`, `t → 1e12`). -/
def suffixScale : Option Char → ℚ
  | some c =>
    let l := c.toLower
    if l = 'b' then 1000000000
    else if l = 'm' then 1000000
    else if l = 't' then 1000000000000
    else 1
  | none => 1

/-- `parseNumber` from `Dashboard.jsx` (the spec's `coerceMagnitude`).
The first four arms are the guard `if (!v && v !== 0) return 0;` (falsy
values other than the number `0`).  Otherwise `String(v)` is stripped of
`$`/`,`, trimmed, matched against the magnitude regex (scaling by the
suffix — note: with NO NaN guard on that branch), and finally the
`parseFloat(s) || 0` fallback.  Result `none` = `NaN`. -/
def parseNumber (v : Cell) : Option ℚ :=
  if jsFalsy v && !(v == Cell.num 0) then some 0
  else
    let s := trimL (removeDollarComma (cellToStringL v))
    match matchMagnitude s with
    | some (p1, suf) => (parseFloatQ p1).map (fun n => n * suffixScale suf)
    | none => some ((parseFloatQ s).getD 0)

/-- `parsePercent` from `Dashboard.jsx` (the spec's `coercePercent`).
Guard `v === undefined || v === null || v === ''`, then
`parseFloat(String(v).replace('%','').trim())` with an `isNaN` check, so
the result is always an actual number. -/
def parsePercent (v : Cell) : ℚ :=
  if v == Cell.undef || v == Cell.nullv || v == Cell.str "" then 0
  else (parseFloatQ (trimL (removeFirstPercent (cellToStringL v)))).getD 0

/-- The yes-token list of `normalizeYesNo`. -/
def yesTokens : List String := ["yes", "y", "true", "1", "reduced", "reduction"]

/-- The no-token list of `normalizeYesNo`. -/
def noTokens : List String := ["no", "n", "false", "0", "unchanged"]

/-- `normalizeYesNo` from `Dashboard.jsx`: falsy input is `"Unknown"`;
otherwise the lowercased string is tested for substring containment
against the yes tokens, then the no tokens; anything else is returned
with its first character upper-cased (the rest stays lowercased, because
the source capitalizes the already-lowercased `s`). -/
def normalizeYesNo (v : Cell) : String :=
  if jsFalsy v then "Unknown"
  else
    let s := lowerL (cellToStringL v)
    if yesTokens.any (fun t => hasSubstr t.toList s) then "Yes"
    else if noTokens.any (fun t => hasSubstr t.toList s) then "No"
    else
      match s with
      | [] => ""
      | c :: cs => String.mk (c.toUpper :: cs)

/-- One normalized row: field name to raw cell value (the JS object built
by `parseValues`; duplicate headers overwrite, which `recGet` models by
taking the LAST binding). -/
abbrev Record := List (String × Cell)

/-- `r[key]` on a record object: last binding wins, a missing key reads as
`undefined`. -/
def recGet (r : Record) (k : String) : Cell :=
  match r.reverse.find? (fun p => p.1 == k) with
  | some p => p.2
  | none => Cell.undef

/-- The body of the `parseValues` row loop:
`for (i = 0; i < headers.length; i++) obj[headers[i]] = r[i] !== undefined ? r[i] : "";`
— zip the row against the headers, padding a short row with `""` and
ignoring cells beyond the header count. -/
def mkRecord : List String → List Cell → Record
  | [], _ => []
  | h :: hs, [] => (h, Cell.str "") :: mkRecord hs []
  | h :: hs, c :: cs => (h, c) :: mkRecord hs cs

/-- `parseValues` from `Dashboard.jsx`: `!values || values.length === 0`
yields `[]`; otherwise the first row (trimmed via `String(h).trim()`)
names the fields and each later row becomes a record. -/
def parseValues : Option (List (List Cell)) → List Record
  | none => []
  | some [] => []
  | some (hrow :: rest) =>
    let headers := hrow.map (fun h => String.mk (trimL (cellToStringL h)))
    rest.map (mkRecord headers)

/-- A fully coerced row (`chartData` element). -/
structure Entry where
  name : Cell
  marketCap : Option ℚ
  revenueGrowth : ℚ
  profitGrowth : ℚ
  marginExpansion : ℚ
  sector : Cell
  revenueStream : Cell
  debtReduced : String
  deriving DecidableEq, Repr

/-- An `a || b || ... || dflt` alias chain from `chartData`: the first
truthy field value wins, else the literal default. -/
def resolveField (r : Record) (aliases : List String) (dflt : Cell) : Cell :=
  match aliases with
  | [] => dflt
  | a :: rest => cond (jsFalsy (recGet r a)) (resolveField r rest dflt) (recGet r a)

/-- The name alias chain `r['Company name'] || r['Company Name'] || r['Name'] || r['company']`. -/
def nameAliases : List String := ["Company name", "Company Name", "Name", "company"]

/-- One element of `chartData` (the spec's `NormalizedEntry`). -/
def entryOf (r : Record) : Entry where
  name := resolveField r nameAliases (Cell.str "—")
  marketCap := parseNumber (recGet r "Market cap")
  revenueGrowth := parsePercent (recGet r "Revenue growth Percentage (YoY)")
  profitGrowth := parsePercent (recGet r "Profit Growth Percentage (YoY)")
  marginExpansion := parsePercent (recGet r "Margin Expansion")
  sector := resolveField r ["Which Sector this Company", "Sector"] (Cell.str "Other")
  revenueStream := resolveField r ["Main Revenue Stream"] (Cell.str "")
  debtReduced := normalizeYesNo (recGet r "Debt Reduced Or Not")

/-- `chartData`: `rows.map(...)`. -/
def chartDataOf (rows : List Record) : List Entry := rows.map entryOf

/-- Stable insertion step: the new element `x` (which comes EARLIER in the
original array than everything already in the sorted list) is placed
before the first element whose `marginExpansion` is `≤` its own, realizing
the stable descending order of ES2019 `Array.prototype.sort` under the
comparator `(a, b) => b.marginExpansion - a.marginExpansion`. -/
def insertDesc (x : Entry) : List Entry → List Entry
  | [] => [x]
  | y :: ys =>
    if y.marginExpansion ≤ x.marginExpansion then x :: y :: ys
    else y :: insertDesc x ys

/-- The array contents produced by
`chartData.sort((a,b) => b.marginExpansion - a.marginExpansion)`: a stable
descending sort.  NOTE: in the source this call MUTATES `chartData` in
place; `sortByMarginDesc l` is therefore also the content of the input
array after the call. -/
def sortByMarginDesc : List Entry → List Entry
  | [] => []
  | x :: xs => insertDesc x (sortByMarginDesc xs)

/-- `chartData.sort(...).slice(0, n)` — the Margin Expansion top-N list
(the source instantiates `n = 5`). -/
def topByMarginExpansion (entries : List Entry) (n : Nat) : List Entry :=
  (sortByMarginDesc entries).take n

/-- The content of the `chartData` array AFTER the top-5 list has been
computed: `Array.prototype.sort` sorts the receiver in place, so the
"input" of the top-5 stage holds the sorted order afterwards. -/
def chartDataAfterTop5 (entries : List Entry) : List Entry :=
  sortByMarginDesc entries

/-- `x || 0` on an actual number: only `0` (and `NaN`, which `parsePercent`
never produces) is falsy, so this is the identity on `ℚ`. -/
def orZeroQ (q : ℚ) : ℚ := if q = 0 then 0 else q

/-- `sectors[d.sector] = (sectors[d.sector] || 0) + 1` on a JS object:
first-seen key order, counter increment. -/
def bumpSector (m : List (String × Nat)) (s : String) : List (String × Nat) :=
  if m.any (fun p => p.1 == s) then
    m.map (fun p => if p.1 == s then (p.1, p.2 + 1) else p)
  else m ++ [(s, 1)]

/-- The summary record computed by `totals`. -/
structure Totals where
  count : Nat
  avgRevenueGrowth : ℚ
  avgProfitGrowth : ℚ
  sectors : List (String × Nat)
  deriving DecidableEq, Repr

/-- `totals` from `Dashboard.jsx` (the spec's `summarize`). -/
def totals (chartData : List Entry) : Totals :=
  let count := chartData.length
  let avgRevenueGrowth :=
    if count = 0 then 0
    else (chartData.foldl (fun a b => a + orZeroQ b.revenueGrowth) 0) / (count : ℚ)
  let avgProfitGrowth :=
    if count = 0 then 0
    else (chartData.foldl (fun a b => a + orZeroQ b.profitGrowth) 0) / (count : ℚ)
  let sectors := chartData.foldl (fun m d => bumpSector m (cellToString d.sector)) []
  { count := count, avgRevenueGrowth := avgRevenueGrowth,
    avgProfitGrowth := avgProfitGrowth, sectors := sectors }

/-- An entry with a given name and margin expansion (all other fields
neutral); used to instantiate ranking properties on concrete data. -/
def mkE (nm : String) (m : ℚ) : Entry where
  name := Cell.str nm
  marketCap := some 0
  revenueGrowth := 0
  profitGrowth := 0
  marginExpansion := m
  sector := Cell.str "Other"
  revenueStream := Cell.str ""
  debtReduced := "Unknown"

/-- An entry with a given name and revenue growth (all other fields
neutral); used to instantiate summary properties on concrete data. -/
def mkG (nm : String) (rev : ℚ) : Entry where
  name := Cell.str nm
  marketCap := some 0
  revenueGrowth := rev
  profitGrowth := 0
  marginExpansion := 0
  sector := Cell.str "Other"
  revenueStream := Cell.str ""
  debtReduced := "Unknown"

/-- The end-to-end scenario grid from the spec. -/
def demoGrid : List (List Cell) :=
  [[Cell.str "Company name", Cell.str "Market cap",
    Cell.str "Revenue growth Percentage (YoY)", Cell.str "Debt Reduced Or Not"],
   [Cell.str "Acme", Cell.str "1.2B", Cell.str "15%", Cell.str "Reduced"],
   [Cell.str "Globex", Cell.str "$500M", Cell.str "-3.5%", Cell.str "Unchanged"]]

/-- The record the normalizer builds from the Acme row of `demoGrid`. -/
def demoR1 : Record :=
  [("Company name", Cell.str "Acme"), ("Market cap", Cell.str "1.2B"),
   ("Revenue growth Percentage (YoY)", Cell.str "15%"),
   ("Debt Reduced Or Not", Cell.str "Reduced")]

/-- The record the normalizer builds from the Globex row of `demoGrid`. -/
def demoR2 : Record :=
  [("Company name", Cell.str "Globex"), ("Market cap", Cell.str "$500M"),
   ("Revenue growth Percentage (YoY)", Cell.str "-3.5%"),
   ("Debt Reduced Or Not", Cell.str "Unchanged")]

/-- A record whose first two name aliases are falsy (one empty, one
absent) and whose third resolves; exercises the alias-priority rule. -/
def demoNameRec : Record :=
  [("Company name", Cell.str ""), ("Name", Cell.str "Acme")]

/-! ## General lemmas about the embedding -/

theorem orZeroQ_eq (q : ℚ) : orZeroQ q = q := by
  unfold orZeroQ; split <;> simp_all

theorem foldl_orZero_sum (f : Entry → ℚ) (l : List Entry) :
    l.foldl (fun a b => a + orZeroQ (f b)) 0 = (l.map f).sum := by
  have key : ∀ (l : List Entry) (init : ℚ),
      l.foldl (fun a b => a + orZeroQ (f b)) init = init + (l.map f).sum := by
    intro l
    induction l with
    | nil => simp
    | cons x xs ih =>
      intro init
      rw [List.foldl_cons, ih]
      simp [orZeroQ_eq, add_assoc]
  simpa using key l 0

theorem insertDesc_perm (x : Entry) : ∀ l : List Entry, (insertDesc x l).Perm (x :: l)
  | [] => by simp [insertDesc]
  | y :: ys => by
    rw [insertDesc]
    split
    · exact List.Perm.refl _
    · exact ((insertDesc_perm x ys).cons y).trans (List.Perm.swap x y ys)

theorem sortByMarginDesc_perm : ∀ l : List Entry, (sortByMarginDesc l).Perm l
  | [] => List.Perm.refl _
  | x :: xs => by
    rw [sortByMarginDesc]
    exact (insertDesc_perm x _).trans ((sortByMarginDesc_perm xs).cons x)

theorem pairwise_insertDesc (x : Entry) {l : List Entry}
    (h : l.Pairwise (fun a b => b.marginExpansion ≤ a.marginExpansion)) :
    (insertDesc x l).Pairwise (fun a b => b.marginExpansion ≤ a.marginExpansion) := by
  induction l with
  | nil => simp [insertDesc]
  | cons y ys ih =>
    rw [List.pairwise_cons] at h
    obtain ⟨hy, hys⟩ := h
    rw [insertDesc]
    split
    next hle =>
      rw [List.pairwise_cons]
      refine ⟨?_, List.pairwise_cons.mpr ⟨hy, hys⟩⟩
      intro z hz
      rcases List.mem_cons.mp hz with rfl | hz2
      · exact hle
      · exact le_trans (hy z hz2) hle
    next hlt =>
      rw [List.pairwise_cons]
      refine ⟨?_, ih hys⟩
      intro z hz
      have hz3 := (insertDesc_perm x ys).mem_iff.mp hz
      rcases List.mem_cons.mp hz3 with rfl | hz4
      · exact le_of_lt (lt_of_not_le hlt)
      · exact hy z hz4

theorem pairwise_sortByMarginDesc : ∀ l : List Entry,
    (sortByMarginDesc l).Pairwise (fun a b => b.marginExpansion ≤ a.marginExpansion)
  | [] => by simp [sortByMarginDesc]
  | x :: xs => by
    rw [sortByMarginDesc]
    exact pairwise_insertDesc x (pairwise_sortByMarginDesc xs)

theorem filter_insertDesc (q : ℚ) (x : Entry) : ∀ l : List Entry,
    (insertDesc x l).filter (fun e => decide (e.marginExpansion = q))
      = if x.marginExpansion = q
        then x :: l.filter (fun e => decide (e.marginExpansion = q))
        else l.filter (fun e => decide (e.marginExpansion = q))
  | [] => by
    simp only [insertDesc, List.filter]
    split_ifs with h <;> simp_all
  | y :: ys => by
    rw [insertDesc]
    split
    next hle =>
      rw [List.filter_cons]
      split_ifs with h1 h2 <;> simp_all
    next hlt =>
      rw [List.filter_cons, filter_insertDesc q x ys]
      by_cases hx : x.marginExpansion = q
      · have hy : ¬ y.marginExpansion = q := by
          intro hq
          exact hlt (by rw [hq, hx])
        simp [hx, hy, List.filter_cons]
      · simp only [hx, if_false]
        rw [List.filter_cons]

theorem filter_sortByMarginDesc (q : ℚ) : ∀ l : List Entry,
    (sortByMarginDesc l).filter (fun e => decide (e.marginExpansion = q))
      = l.filter (fun e => decide (e.marginExpansion = q))
  | [] => rfl
  | x :: xs => by
    rw [sortByMarginDesc, filter_insertDesc q x _, filter_sortByMarginDesc q xs,
      List.filter_cons]
    split_ifs <;> simp_all

theorem mkRecord_keys : ∀ (hs : List String) (r : List Cell),
    (mkRecord hs r).map Prod.fst = hs
  | [], _ => rfl
  | h :: hs, [] => by simp [mkRecord, mkRecord_keys hs []]
  | h :: hs, c :: cs => by simp [mkRecord, mkRecord_keys hs cs]

theorem mkRecord_values : ∀ (hs : List String) (r : List Cell),
    (mkRecord hs r).map Prod.snd
      = r.take hs.length ++ List.replicate (hs.length - r.length) (Cell.str "")
  | [], r => by simp [mkRecord]
  | h :: hs, [] => by simp [mkRecord, mkRecord_values hs [], List.replicate_succ]
  | h :: hs, c :: cs => by simp [mkRecord, mkRecord_values hs cs]

/-! ## Claim theorems -/

/-- C1: the claim says both numeric coercions return `0` on every parse
failure and never produce a not-a-number value.  The code violates this:
`parseNumber` feeds strings such as `"-"` or `"."` through the magnitude
regex branch, where `parseFloat` yields `NaN` and no guard restores `0`
(`none` models `NaN`).  `parsePercent`, by contrast, is guarded and does
return `0` there. -/
theorem parseNumber_nan_on_dash :
    parseNumber (Cell.str "-") = none ∧
    parseNumber (Cell.str ".") = none ∧
    parsePercent (Cell.str "-") = 0 := by
  refine ⟨by decide, by decide, ?_⟩
  have hg : (Cell.str "-" == Cell.undef || Cell.str "-" == Cell.nullv ||
      Cell.str "-" == Cell.str "") = false := by decide
  have h : parseFloatRep (trimL (removeFirstPercent (cellToStringL (Cell.str "-"))))
      = none := by decide
  rw [parsePercent]
  simp [hg, parseFloatQ, h]

/-- C2 counterexample: the claim asserts
`normalizeYesNo "Partially" = "Partially"`, but the case-insensitive
substring test finds the yes-token `"y"` inside `"partially"`, so the code
returns `"Yes"`. -/
theorem normalizeYesNo_partially_counterexample :
    normalizeYesNo (Cell.str "Partially") = "Yes" ∧
    normalizeYesNo (Cell.str "Partially") ≠ "Partially" := by decide

/-- C2 (amended): `normalizeYesNo` maps `"Reduced"` to `"Yes"`,
`"Unchanged"` to `"No"`, `""` to `"Unknown"` and `"Partially"` to `"Yes"`
(the substring test matches the yes-token `"y"`); the yes set is tested
before the no set (`"no, reduced"` is `"Yes"`); free text matching
neither set is passed through with its first character capitalized
(`"ok"` becomes `"Ok"`). -/
theorem normalizeYesNo_examples :
    normalizeYesNo (Cell.str "Reduced") = "Yes" ∧
    normalizeYesNo (Cell.str "Unchanged") = "No" ∧
    normalizeYesNo (Cell.str "") = "Unknown" ∧
    normalizeYesNo (Cell.str "Partially") = "Yes" ∧
    normalizeYesNo (Cell.str "no, reduced") = "Yes" ∧
    normalizeYesNo (Cell.str "ok") = "Ok" := by decide

/-- C3: the claim says computing the top-N list leaves the input entry
sequence unchanged.  The code violates this: `Array.prototype.sort`
mutates its receiver, so after the top-5 computation the `chartData`
array holds the sorted order — on `[A(margin 3), B(margin 5)]` it ends up
as `[B, A]`, not the original `[A, B]`. -/
theorem top5_sort_mutates_chartData :
    chartDataAfterTop5 [mkE "A" 3, mkE "B" 5] = [mkE "B" 5, mkE "A" 3] ∧
    chartDataAfterTop5 [mkE "A" 3, mkE "B" 5] ≠ [mkE "A" 3, mkE "B" 5] := by decide

/-- C4 counterexample: the claim says the entry name field is the empty
string when no name alias resolves; the code's alias chain ends in the
literal `'—'`, so an empty record yields the em dash, not `""`. -/
theorem entry_name_default_counterexample :
    (entryOf []).name = Cell.str "—" ∧ (entryOf []).name ≠ Cell.str "" := by decide

/-- C4 (amended): `resolveField` returns the value of the first alias
whose record value is truthy (present and non-empty), and the fixed
per-field default when none is — for the name field that default is the
em dash `"—"`, not the empty string. -/
theorem resolveField_spec :
    (∀ (r : Record) (pre post : List String) (a : String) (d : Cell),
        (∀ b ∈ pre, jsFalsy (recGet r b) = true) →
        jsFalsy (recGet r a) = false →
        resolveField r (pre ++ a :: post) d = recGet r a) ∧
    (∀ (r : Record) (aliases : List String) (d : Cell),
        (∀ b ∈ aliases, jsFalsy (recGet r b) = true) →
        resolveField r aliases d = d) ∧
    (∀ r : Record, (entryOf r).name = resolveField r nameAliases (Cell.str "—")) ∧
    (entryOf []).name = Cell.str "—" := by
  refine ⟨?_, ?_, fun r => rfl, by decide⟩
  · intro r pre post a d hpre ha
    induction pre with
    | nil => simp [resolveField, ha]
    | cons b bs ih =>
      have hb := hpre b (List.mem_cons_self b bs)
      rw [List.cons_append, resolveField, hb]
      exact ih fun c hc => hpre c (List.mem_cons_of_mem b hc)
  · intro r aliases d h
    induction aliases with
    | nil => rfl
    | cons b bs ih =>
      have hb := h b (List.mem_cons_self b bs)
      rw [resolveField, hb]
      exact ih fun c hc => h c (List.mem_cons_of_mem b hc)

/-- C4 witness: on a record whose first two name aliases are falsy and
whose third is `"Acme"`, the alias chain resolves to `"Acme"`. -/
theorem resolveField_spec_witness :
    (∀ b ∈ ["Company name", "Company Name"], jsFalsy (recGet demoNameRec b) = true) ∧
    jsFalsy (recGet demoNameRec "Name") = false ∧
    resolveField demoNameRec nameAliases (Cell.str "—") = Cell.str "Acme" := by
  refine ⟨by decide, by decide, ?_⟩
  have h := resolveField_spec.1 demoNameRec ["Company name", "Company Name"]
    ["company"] "Name" (Cell.str "—") (by decide) (by decide)
  have hl : nameAliases = ["Company name", "Company Name"] ++ "Name" :: ["company"] := rfl
  have heq : recGet demoNameRec "Name" = Cell.str "Acme" := by decide
  rw [hl, h, heq]

/-- C5: on the spec's end-to-end grid, the pipeline yields entries
Acme (market cap 1.2e9, revenue growth 15, debt reduced Yes) and
Globex (5e8, -3.5, No), and `totals` reports count 2 with average
revenue growth 5.75. -/
theorem endToEnd_demo :
    (chartDataOf (parseValues (some demoGrid))).map Entry.name
        = [Cell.str "Acme", Cell.str "Globex"] ∧
    (chartDataOf (parseValues (some demoGrid))).map Entry.marketCap
        = [some 1200000000, some 500000000] ∧
    (chartDataOf (parseValues (some demoGrid))).map Entry.revenueGrowth
        = [15, -3.5] ∧
    (chartDataOf (parseValues (some demoGrid))).map Entry.debtReduced
        = ["Yes", "No"] ∧
    (totals (chartDataOf (parseValues (some demoGrid)))).count = 2 ∧
    (totals (chartDataOf (parseValues (some demoGrid)))).avgRevenueGrowth = 5.75 := by
  have hpv : parseValues (some demoGrid) = [demoR1, demoR2] := by decide
  have hcd : chartDataOf (parseValues (some demoGrid)) = [entryOf demoR1, entryOf demoR2] := by
    rw [hpv]; rfl
  have hname1 : resolveField demoR1 nameAliases (Cell.str "—") = Cell.str "Acme" := by decide
  have hname2 : resolveField demoR2 nameAliases (Cell.str "—") = Cell.str "Globex" := by decide
  have hdr1 : normalizeYesNo (recGet demoR1 "Debt Reduced Or Not") = "Yes" := by decide
  have hdr2 : normalizeYesNo (recGet demoR2 "Debt Reduced Or Not") = "No" := by decide
  have hmc1 : parseNumber (recGet demoR1 "Market cap") = some 1200000000 := by
    have hv : recGet demoR1 "Market cap" = Cell.str "1.2B" := by decide
    have hg : (jsFalsy (Cell.str "1.2B") && !(Cell.str "1.2B" == Cell.num 0)) = false := by
      decide
    have hm : matchMagnitude (trimL (removeDollarComma (cellToStringL (Cell.str "1.2B"))))
        = some (['1', '.', '2'], some 'B') := by decide
    have hr : parseFloatRep ['1', '.', '2'] = some ⟨false, 12, 1, false, 0⟩ := by decide
    have hs : suffixScale (some 'B') = 1000000000 := by decide
    rw [hv, parseNumber]
    simp only [hg, Bool.false_eq_true, if_false, hm, parseFloatQ, hr, Option.map_some', hs]
    simp only [repToQ, tenPowQ]
    norm_num
  have hmc2 : parseNumber (recGet demoR2 "Market cap") = some 500000000 := by
    have hv : recGet demoR2 "Market cap" = Cell.str "$500M" := by decide
    have hg : (jsFalsy (Cell.str "$500M") && !(Cell.str "$500M" == Cell.num 0)) = false := by
      decide
    have hm : matchMagnitude (trimL (removeDollarComma (cellToStringL (Cell.str "$500M"))))
        = some (['5', '0', '0'], some 'M') := by decide
    have hr : parseFloatRep ['5', '0', '0'] = some ⟨false, 500, 0, false, 0⟩ := by decide
    have hs : suffixScale (some 'M') = 1000000 := by decide
    rw [hv, parseNumber]
    simp only [hg, Bool.false_eq_true, if_false, hm, parseFloatQ, hr, Option.map_some', hs]
    simp only [repToQ, tenPowQ]
    norm_num
  have hrg1 : parsePercent (recGet demoR1 "Revenue growth Percentage (YoY)") = 15 := by
    have hv : recGet demoR1 "Revenue growth Percentage (YoY)" = Cell.str "15%" := by decide
    have hg : (Cell.str "15%" == Cell.undef || Cell.str "15%" == Cell.nullv ||
        Cell.str "15%" == Cell.str "") = false := by decide
    have hr : parseFloatRep (trimL (removeFirstPercent (cellToStringL (Cell.str "15%"))))
        = some ⟨false, 15, 0, false, 0⟩ := by decide
    rw [hv, parsePercent]
    simp only [hg, Bool.false_eq_true, if_false, parseFloatQ, hr, Option.map_some',
      Option.getD_some]
    simp only [repToQ, tenPowQ]
    norm_num
  have hrg2 : parsePercent (recGet demoR2 "Revenue growth Percentage (YoY)") = -3.5 := by
    have hv : recGet demoR2 "Revenue growth Percentage (YoY)" = Cell.str "-3.5%" := by decide
    have hg : (Cell.str "-3.5%" == Cell.undef || Cell.str "-3.5%" == Cell.nullv ||
        Cell.str "-3.5%" == Cell.str "") = false := by decide
    have hr : parseFloatRep (trimL (removeFirstPercent (cellToStringL (Cell.str "-3.5%"))))
        = some ⟨true, 35, 1, false, 0⟩ := by decide
    rw [hv, parsePercent]
    simp only [hg, Bool.false_eq_true, if_false, parseFloatQ, hr, Option.map_some',
      Option.getD_some]
    simp only [repToQ, tenPowQ]
    norm_num
  rw [hcd]
  refine ⟨?_, ?_, ?_, ?_, rfl, ?_⟩
  · simp [entryOf, hname1, hname2]
  · simp [entryOf, hmc1, hmc2]
  · simp [entryOf, hrg1, hrg2]
  · simp [entryOf, hdr1, hdr2]
  · simp only [totals, List.length_cons, List.length_nil, List.foldl_cons, List.foldl_nil]
    simp only [entryOf, hrg1, hrg2, orZeroQ_eq]
    norm_num

/-- C6 counterexample: the claim says a `%` that is not trailing is not
stripped, which on `"%50"` would mean `parseFloat("%50")`, i.e. `0`, and
on `"1%2"` would mean `parseFloat("1%2")`, i.e. `1`.  The code strips the
FIRST `%` wherever it occurs, yielding `50` and `12`. -/
theorem parsePercent_strips_first_counterexample :
    parsePercent (Cell.str "%50") = 50 ∧
    parsePercent (Cell.str "%50") ≠ 0 ∧
    parsePercent (Cell.str "1%2") = 12 ∧
    parsePercent (Cell.str "1%2") ≠ 1 := by
  have h50 : parsePercent (Cell.str "%50") = 50 := by
    have hg : (Cell.str "%50" == Cell.undef || Cell.str "%50" == Cell.nullv ||
        Cell.str "%50" == Cell.str "") = false := by decide
    have hr : parseFloatRep (trimL (removeFirstPercent (cellToStringL (Cell.str "%50"))))
        = some ⟨false, 50, 0, false, 0⟩ := by decide
    rw [parsePercent]
    simp only [hg, Bool.false_eq_true, if_false, parseFloatQ, hr, Option.map_some',
      Option.getD_some]
    simp only [repToQ, tenPowQ]
    norm_num
  have h12 : parsePercent (Cell.str "1%2") = 12 := by
    have hg : (Cell.str "1%2" == Cell.undef || Cell.str "1%2" == Cell.nullv ||
        Cell.str "1%2" == Cell.str "") = false := by decide
    have hr : parseFloatRep (trimL (removeFirstPercent (cellToStringL (Cell.str "1%2"))))
        = some ⟨false, 12, 0, false, 0⟩ := by decide
    rw [parsePercent]
    simp only [hg, Bool.false_eq_true, if_false, parseFloatQ, hr, Option.map_some',
      Option.getD_some]
    simp only [repToQ, tenPowQ]
    norm_num
  refine ⟨h50, ?_, h12, ?_⟩
  · rw [h50]; norm_num
  · rw [h12]; norm_num

/-- C6 (amended): `parsePercent` removes the FIRST `%` if one occurs
anywhere, trims, and parses the remainder as a float; empty or
unparseable input yields `0`.  In particular `"12.5%"` gives `12.5`,
`""` and `"n/a"` give `0`, surrounding whitespace is ignored, and a
leading `%` is stripped too (`"%50"` gives `50`). -/
theorem parsePercent_examples :
    parsePercent (Cell.str "12.5%") = 12.5 ∧
    parsePercent (Cell.str "") = 0 ∧
    parsePercent (Cell.str "n/a") = 0 ∧
    parsePercent (Cell.str " 12.5% ") = 12.5 ∧
    parsePercent (Cell.str "%50") = 50 := by
  have h125 : ∀ s : String, s = "12.5%" ∨ s = " 12.5% " →
      parsePercent (Cell.str s) = 12.5 := by
    intro s hs
    have hg : (Cell.str s == Cell.undef || Cell.str s == Cell.nullv ||
        Cell.str s == Cell.str "") = false := by
      rcases hs with rfl | rfl <;> decide
    have hr : parseFloatRep (trimL (removeFirstPercent (cellToStringL (Cell.str s))))
        = some ⟨false, 125, 1, false, 0⟩ := by
      rcases hs with rfl | rfl <;> decide
    rw [parsePercent]
    simp only [hg, Bool.false_eq_true, if_false, parseFloatQ, hr, Option.map_some',
      Option.getD_some]
    simp only [repToQ, tenPowQ]
    norm_num
  have h50 : parsePercent (Cell.str "%50") = 50 := by
    have hg : (Cell.str "%50" == Cell.undef || Cell.str "%50" == Cell.nullv ||
        Cell.str "%50" == Cell.str "") = false := by decide
    have hr : parseFloatRep (trimL (removeFirstPercent (cellToStringL (Cell.str "%50"))))
        = some ⟨false, 50, 0, false, 0⟩ := by decide
    rw [parsePercent]
    simp only [hg, Bool.false_eq_true, if_false, parseFloatQ, hr, Option.map_some',
      Option.getD_some]
    simp only [repToQ, tenPowQ]
    norm_num
  exact ⟨h125 _ (Or.inl rfl), by decide, by decide, h125 _ (Or.inr rfl), h50⟩

/-- C7: each non-header row becomes a record whose keys are exactly the
trimmed header names; a short row is padded with trailing empty strings
and a long row is truncated to the header count. -/
theorem toRecords_keys_pad_truncate (hrow : List Cell) (rest : List (List Cell))
    (hs : List String) (r : List Cell) :
    parseValues (some (hrow :: rest))
      = rest.map (mkRecord (hrow.map (fun h => String.mk (trimL (cellToStringL h))))) ∧
    (mkRecord hs r).map Prod.fst = hs ∧
    (mkRecord hs r).map Prod.snd
      = r.take hs.length ++ List.replicate (hs.length - r.length) (Cell.str "") :=
  ⟨rfl, mkRecord_keys hs r, mkRecord_values hs r⟩

/-- C8: the top-N list is the first `n` elements of a stable descending
sort by `marginExpansion`: the sorted list is a permutation of the input,
is pairwise descending, preserves the relative order of entries with any
given margin value, and on `[A(5), B(5), C(3)]` the top 2 are `[A, B]`
in input order. -/
theorem topByMarginExpansion_stable (l : List Entry) (n : Nat) (q : ℚ) :
    topByMarginExpansion l n = (sortByMarginDesc l).take n ∧
    (sortByMarginDesc l).Perm l ∧
    (sortByMarginDesc l).Pairwise (fun a b => b.marginExpansion ≤ a.marginExpansion) ∧
    (sortByMarginDesc l).filter (fun e => decide (e.marginExpansion = q))
      = l.filter (fun e => decide (e.marginExpansion = q)) ∧
    topByMarginExpansion [mkE "A" 5, mkE "B" 5, mkE "C" 3] 2 = [mkE "A" 5, mkE "B" 5] :=
  ⟨rfl, sortByMarginDesc_perm l, pairwise_sortByMarginDesc l,
    filter_sortByMarginDesc q l, by decide⟩

/-- C9: `totals` reports the entry count, `0` averages on an empty
sequence, and the exact arithmetic means of revenue and profit growth on
a non-empty one. -/
theorem totals_count_avg (entries : List Entry) :
    (totals entries).count = entries.length ∧
    (entries = [] →
      (totals entries).avgRevenueGrowth = 0 ∧ (totals entries).avgProfitGrowth = 0) ∧
    (entries ≠ [] →
      (totals entries).avgRevenueGrowth
          = (entries.map Entry.revenueGrowth).sum / entries.length ∧
      (totals entries).avgProfitGrowth
          = (entries.map Entry.profitGrowth).sum / entries.length) := by
  refine ⟨rfl, ?_, ?_⟩
  · intro h; subst h; exact ⟨rfl, rfl⟩
  · intro h
    have hlen : entries.length ≠ 0 := fun hl => h (List.length_eq_zero.mp hl)
    constructor
    · simp only [totals, hlen, if_false]
      rw [foldl_orZero_sum Entry.revenueGrowth]
    · simp only [totals, hlen, if_false]
      rw [foldl_orZero_sum Entry.profitGrowth]

/-- C9 witness: the empty sequence averages to `0`; two entries with
revenue growth `4` and `6` average to `5`. -/
theorem totals_count_avg_witness :
    (totals ([] : List Entry)).avgRevenueGrowth = 0 ∧
    [mkG "A" 4, mkG "B" 6] ≠ ([] : List Entry) ∧
    (totals [mkG "A" 4, mkG "B" 6]).avgRevenueGrowth = 5 := by
  refine ⟨((totals_count_avg []).2.1 rfl).1, by decide, ?_⟩
  have h := ((totals_count_avg [mkG "A" 4, mkG "B" 6]).2.2 (by decide)).1
  rw [h]
  simp [mkG]
  norm_num

/-- C10: the empty/absent check of `normalizeYesNo` is a general JS
falsiness test: every falsy cell (including the number `0` and `false`)
yields `"Unknown"`, while the STRING `"0"` matches the no set and yields
`"No"`. -/
theorem normalizeYesNo_falsy_spec :
    (∀ v : Cell, jsFalsy v = true → normalizeYesNo v = "Unknown") ∧
    normalizeYesNo (Cell.num 0) = "Unknown" ∧
    normalizeYesNo (Cell.boolean false) = "Unknown" ∧
    normalizeYesNo (Cell.str "0") = "No" := by
  refine ⟨?_, by decide, by decide, by decide⟩
  intro v h
  rw [normalizeYesNo]
  simp [h]

/-- C10 witness: the number `0` is falsy and normalizes to `"Unknown"`. -/
theorem normalizeYesNo_falsy_witness :
    jsFalsy (Cell.num 0) = true ∧ normalizeYesNo (Cell.num 0) = "Unknown" :=
  ⟨by decide, normalizeYesNo_falsy_spec.1 (Cell.num 0) (by decide)⟩

end Dashboard
